import Mathlib

/- Shallow embedding of the event-sourced order core (package order):
   the Order aggregate, its events, the in-memory event store, the
   default repository, and the command handler. Statuses are Go int
   constants declared with iota, so StatusPlaced is 0 and is also the
   zero value of the Status field. -/

abbrev Status := Nat

def StatusPlaced : Status := 0

def StatusActivated : Status := 1

inductive Event where
  | placed (orderID : String)
  | activated (orderID : String)
deriving DecidableEq

def Event.ID : Event → String
  | .placed oid => oid
  | .activated oid => oid

inductive Line where
  | mk
deriving DecidableEq

structure Order where
  ID : String
  Status : Status
  uncommitted : List Event
deriving DecidableEq

inductive OrderError where
  | alreadyPlaced
  | emptyOrderLine
  | orderNotFound
deriving DecidableEq

def handle (o : Order) (e : Event) : Order :=
  match e with
  | .activated _ => { o with Status := StatusActivated }
  | .placed _ => { o with Status := StatusPlaced }

def apply (o : Order) (e : Event) (isNew : Bool) : Order :=
  let o2 := handle { o with ID := e.ID } e
  if isNew then { o2 with uncommitted := o2.uncommitted ++ [e] } else o2

def Order.Place (o : Order) (orderLines : List Line) : Order × Option OrderError :=
  if o.ID = "" then (o, some OrderError.alreadyPlaced)
  else if orderLines.length = 0 then (o, some OrderError.emptyOrderLine)
  else (apply o (Event.placed o.ID) true, none)

def Order.Activate (o : Order) : Order :=
  if o.Status = StatusPlaced then apply o (Event.activated o.ID) true else o

def loadFromHistory (events : List Event) : Order :=
  events.foldl (fun o e => apply o e false) { ID := "", Status := StatusPlaced, uncommitted := [] }

structure eventStore where
  events : List Event
deriving DecidableEq

def eventStore.Save (s : eventStore) (id : String) (events : List Event) : eventStore :=
  { s with events := s.events ++ events }

def eventStore.Load (s : eventStore) (id : String) : Except OrderError (List Event) :=
  let result := s.events.filter (fun e => e.ID == id)
  if result.length = 0 then Except.error OrderError.orderNotFound
  else Except.ok result

def defaultRepository.Save (s : eventStore) (order : Order) : eventStore :=
  if order.uncommitted.length > 0 then s.Save order.ID order.uncommitted else s

def defaultRepository.Load (s : eventStore) (id : String) : Order :=
  match s.Load id with
  | Except.error _ => { ID := "", Status := StatusPlaced, uncommitted := [] }
  | Except.ok events => loadFromHistory events

inductive Command where
  | place (orderID : String) (lines : List Line)
  | activate (orderID : String)
deriving DecidableEq

def commandHandler.Handle (s : eventStore) (c : Command) : eventStore :=
  match c with
  | Command.place oid lines =>
      let o : Order := { ID := oid, Status := StatusPlaced, uncommitted := [] }
      let o2 := (o.Place lines).1
      defaultRepository.Save s o2
  | Command.activate oid =>
      let o := defaultRepository.Load s oid
      defaultRepository.Save s o.Activate

/- Operation sequences on an aggregate, for the round-trip property.
   A fresh aggregate is constructed the way the command handler does,
   seeded only with an identifier. -/

inductive Op where
  | place (lines : List Line)
  | activate
deriving DecidableEq

def runOp (o : Order) : Op → Order × Option OrderError
  | Op.place lines => o.Place lines
  | Op.activate => (o.Activate, none)

def runOps : Order → List Op → Option Order
  | o, [] => some o
  | o, op :: rest =>
      match runOp o op with
      | (o2, none) => runOps o2 rest
      | (_, some _) => none

def freshOrder (id : String) : Order :=
  { ID := id, Status := StatusPlaced, uncommitted := [] }

/- Helper lemmas about apply and replay. -/

def eventStatus : Event → Status
  | Event.placed _ => StatusPlaced
  | Event.activated _ => StatusActivated

theorem apply_ID (o : Order) (e : Event) (b : Bool) : (apply o e b).ID = e.ID := by
  cases e <;> cases b <;> rfl

theorem apply_Status (o : Order) (e : Event) (b : Bool) :
    (apply o e b).Status = eventStatus e := by
  cases e <;> cases b <;> rfl

theorem apply_false_uncommitted (o : Order) (e : Event) :
    (apply o e false).uncommitted = o.uncommitted := by
  cases e <;> rfl

theorem apply_true_uncommitted (o : Order) (e : Event) :
    (apply o e true).uncommitted = o.uncommitted ++ [e] := by
  cases e <;> rfl

theorem foldl_apply_uncommitted (l : List Event) (o : Order) :
    (l.foldl (fun o e => apply o e false) o).uncommitted = o.uncommitted := by
  induction l generalizing o with
  | nil => rfl
  | cons e t ih => rw [List.foldl_cons, ih, apply_false_uncommitted]

theorem loadFromHistory_uncommitted (events : List Event) :
    (loadFromHistory events).uncommitted = [] := by
  rw [loadFromHistory, foldl_apply_uncommitted]

theorem loadFromHistory_concat (u : List Event) (e : Event) :
    loadFromHistory (u ++ [e])
      = apply (loadFromHistory u) e false := by
  simp [loadFromHistory, List.foldl_append]

theorem loadFromHistory_ID (u : List Event) (id : String)
    (hne : u ≠ []) (hall : ∀ e ∈ u, e.ID = id) : (loadFromHistory u).ID = id := by
  rcases List.eq_nil_or_concat u with rfl | ⟨l, e, rfl⟩
  · exact absurd rfl hne
  · have he : e.ID = id := hall e (by simp)
    rw [List.concat_eq_append, loadFromHistory_concat, apply_ID, he]

/- Claim theorems: placement guards. -/

/-- C1 counterexample: on an aggregate whose identifier is already set
(non-empty) and non-empty lines, Place succeeds instead of failing with
AlreadyPlaced, refuting the claim as stated. -/
theorem C1_counterexample :
    ¬ ((Order.Place { ID := "X", Status := StatusPlaced, uncommitted := [] } [Line.mk]).2
        = some OrderError.alreadyPlaced) := by
  decide

/-- C1 amended: Place fails with AlreadyPlaced exactly when the identifier is
EMPTY (the guard in the code is inverted relative to the claim); the aggregate
is returned unchanged, so no event is applied and the uncommitted buffer and
status are untouched. -/
theorem C1_amended (o : Order) (lines : List Line) (h : o.ID = "") :
    o.Place lines = (o, some OrderError.alreadyPlaced) := by
  simp [Order.Place, h]

/-- C1 witness: the amended theorem at the zero aggregate and one line. -/
theorem C1_witness :
    Order.Place { ID := "", Status := StatusPlaced, uncommitted := [] } [Line.mk]
      = ({ ID := "", Status := StatusPlaced, uncommitted := [] }, some OrderError.alreadyPlaced) :=
  C1_amended { ID := "", Status := StatusPlaced, uncommitted := [] } [Line.mk] rfl

/-- C3 counterexample: on the zero aggregate (empty identifier), Place with
empty lines fails with AlreadyPlaced, not EmptyOrderLine, because the
identifier guard is checked first, refuting the claim as stated for every
aggregate. -/
theorem C3_counterexample :
    ¬ ((Order.Place { ID := "", Status := StatusPlaced, uncommitted := [] } []).2
        = some OrderError.emptyOrderLine) := by
  decide

/-- C3 amended: on an aggregate whose identifier is non-empty, Place with empty
lines fails with EmptyOrderLine and returns the aggregate unchanged (no event
applied, status and uncommitted buffer untouched). -/
theorem C3_amended (o : Order) (h : o.ID ≠ "") :
    o.Place [] = (o, some OrderError.emptyOrderLine) := by
  simp [Order.Place, h]

/-- C3 witness: the amended theorem at an aggregate with identifier X. -/
theorem C3_witness :
    Order.Place { ID := "X", Status := StatusPlaced, uncommitted := [] } []
      = ({ ID := "X", Status := StatusPlaced, uncommitted := [] }, some OrderError.emptyOrderLine) :=
  C3_amended { ID := "X", Status := StatusPlaced, uncommitted := [] } (by decide)

/-- C2: evaluation of the code at the failing input. The zero-value aggregate
has Status 0, which is numerically StatusPlaced, so Activate fires instead of
being a silent no-op: it applies an Activated event with empty owning
identifier, sets the status to Activated and records the event as uncommitted,
contradicting the claim that the default state is a no-op for Activate. -/
theorem C2_code_behavior :
    Order.Activate { ID := "", Status := StatusPlaced, uncommitted := [] }
      = { ID := "", Status := StatusActivated, uncommitted := [Event.activated ""] } := by
  decide

/- Claim theorems: event store. -/

/-- C5: the store Load fails with NotFound for an identifier with zero
recorded events (no stored event carries that identifier). -/
theorem C5_not_found (s : eventStore) (id : String)
    (h : s.events.filter (fun e => e.ID == id) = []) :
    s.Load id = Except.error OrderError.orderNotFound := by
  simp [eventStore.Load, h]

/-- C5 witness: the empty store has no events for identifier X. -/
theorem C5_witness :
    eventStore.Load { events := [] } "X" = Except.error OrderError.orderNotFound :=
  C5_not_found { events := [] } "X" rfl

/-- C8: when the store Load fails with NotFound, the repository Load returns
the zero-value aggregate (empty identifier, default status StatusPlaced, no
uncommitted events) instead of propagating the error; by its type the
repository Load returns an aggregate, so the store error never escapes. -/
theorem C8_soft_miss (s : eventStore) (id : String)
    (h : s.Load id = Except.error OrderError.orderNotFound) :
    defaultRepository.Load s id = { ID := "", Status := StatusPlaced, uncommitted := [] } := by
  simp [defaultRepository.Load, h]

/-- C8 witness: loading identifier X from the empty store. -/
theorem C8_witness :
    defaultRepository.Load { events := [] } "X"
      = { ID := "", Status := StatusPlaced, uncommitted := [] } :=
  C8_soft_miss { events := [] } "X" rfl

/-- C9: Activate on an aggregate already in Activated status is the identity:
no new uncommitted event and unchanged status. -/
theorem C9_idempotent (o : Order) (h : o.Status = StatusActivated) :
    o.Activate = o := by
  have hne : ¬ (o.Status = StatusPlaced) := by rw [h]; decide
  simp [Order.Activate, hne]

/-- C9 witness: an activated aggregate with identifier A. -/
theorem C9_witness :
    Order.Activate { ID := "A", Status := StatusActivated, uncommitted := [] }
      = { ID := "A", Status := StatusActivated, uncommitted := [] } :=
  C9_idempotent { ID := "A", Status := StatusActivated, uncommitted := [] } rfl

/-- C7: the repository Save is a no-op when there are no uncommitted events;
with uncommitted events it appends exactly those events in order to the store;
and a replayed aggregate has an empty uncommitted buffer, so it never re-saves
events it did not itself generate. -/
theorem C7_save_contract (s : eventStore) (o : Order) (events : List Event) :
    (o.uncommitted = [] → defaultRepository.Save s o = s) ∧
    (o.uncommitted ≠ [] →
      (defaultRepository.Save s o).events = s.events ++ o.uncommitted) ∧
    (loadFromHistory events).uncommitted = [] := by
  refine ⟨?_, ?_, loadFromHistory_uncommitted events⟩
  · intro h
    simp [defaultRepository.Save, h]
  · intro h
    simp [defaultRepository.Save, eventStore.Save, List.length_pos.mpr h]

/-- C7 witness: the first conjunct at an aggregate with no uncommitted events
and the empty store. -/
theorem C7_witness :
    defaultRepository.Save { events := [] } { ID := "A", Status := StatusPlaced, uncommitted := [] }
      = { events := [] } :=
  (C7_save_contract { events := [] }
    { ID := "A", Status := StatusPlaced, uncommitted := [] } []).1 rfl

/-- C4 counterexample: the store Save ignores the identifier argument and Load
filters by the identifier carried inside each event, so appending under
identifier A an event owned by B does not make it visible to Load A: on the
empty store, after Append A of a Placed event owned by B, Load A still fails
instead of returning the appended events. -/
theorem C4_counterexample :
    ¬ (eventStore.Load (eventStore.Save { events := [] } "A" [Event.placed "B"]) "A"
        = Except.ok [Event.placed "B"]) := by
  intro h
  exact Except.noConfusion h

/-- C4 amended: when every appended event is owned by the identifier it is
appended under and the batch is non-empty, Load after Append returns the prior
history for that identifier concatenated with the batch, in order; and
appending an empty batch leaves the store unchanged. -/
theorem C4_amended (s : eventStore) (id : String) (events : List Event)
    (hall : ∀ e ∈ events, e.ID = id) (hne : events ≠ []) :
    (s.Save id events).Load id
        = Except.ok (s.events.filter (fun e => e.ID == id) ++ events) ∧
    s.Save id [] = s := by
  constructor
  · have hfilter : events.filter (fun e => e.ID == id) = events := by
      rw [List.filter_eq_self]
      intro e he
      exact beq_iff_eq.mpr (hall e he)
    have hlen : ¬ ((s.events.filter (fun e => e.ID == id) ++ events).length = 0) := by
      rw [List.length_eq_zero, List.append_eq_nil]
      intro hcon
      exact hne hcon.2
    simp only [eventStore.Save, eventStore.Load, List.filter_append, hfilter]
    rw [if_neg hlen]
  · simp [eventStore.Save]

/-- C4 witness: appending one Placed event owned by A under identifier A to the
empty store, then loading A, returns exactly that event; appending nothing is a
no-op. -/
theorem C4_witness :
    (eventStore.Save { events := [] } "A" [Event.placed "A"]).Load "A"
        = Except.ok ((List.filter (fun e => e.ID == "A") []) ++ [Event.placed "A"]) ∧
    eventStore.Save { events := [] } "A" [] = { events := [] } :=
  C4_amended { events := [] } "A" [Event.placed "A"]
    (by intro e he; simp at he; rw [he]; rfl) (by decide)

/-- C10: when the store holds no events for a non-empty identifier, handling
Activate for that identifier is not a no-op on the store: the soft-miss load
yields the zero aggregate, whose status numerically equals StatusPlaced, so
Activate fires and the handler appends exactly one Activated event owned by
the empty string; afterwards the store Load of the empty string succeeds while
Load of the requested identifier still fails with NotFound. -/
theorem C10_empty_id_append (s : eventStore) (id : String) (hid : id ≠ "")
    (h : s.events.filter (fun e => e.ID == id) = []) :
    (commandHandler.Handle s (Command.activate id)).events
        = s.events ++ [Event.activated ""] ∧
    (∃ l, (commandHandler.Handle s (Command.activate id)).Load "" = Except.ok l) ∧
    (commandHandler.Handle s (Command.activate id)).Load id
        = Except.error OrderError.orderNotFound := by
  have hload : defaultRepository.Load s id
      = { ID := "", Status := StatusPlaced, uncommitted := [] } := by
    simp [defaultRepository.Load, eventStore.Load, h]
  have hhandle : commandHandler.Handle s (Command.activate id)
      = { events := s.events ++ [Event.activated ""] } := by
    simp only [commandHandler.Handle, hload]
    rfl
  rw [hhandle]
  refine ⟨rfl, ?_, ?_⟩
  · have hsingle : List.filter (fun e => e.ID == "") [Event.activated ""]
        = [Event.activated ""] := rfl
    have hlen : ¬ ((List.filter (fun e => e.ID == "") s.events ++ [Event.activated ""]).length = 0) := by
      simp
    refine ⟨List.filter (fun e => e.ID == "") s.events ++ [Event.activated ""], ?_⟩
    simp only [eventStore.Load, List.filter_append, hsingle]
    rw [if_neg hlen]
  · have hmiss : ((Event.activated "").ID == id) = false :=
      beq_eq_false_iff_ne.mpr (fun hc => hid hc.symm)
    have hsingle2 : List.filter (fun e => e.ID == id) [Event.activated ""] = [] := by
      rw [List.filter_cons, hmiss]
      simp
    simp only [eventStore.Load, List.filter_append, h, hsingle2, List.nil_append]
    rfl

/-- C10 witness: the theorem at the empty store and identifier X. -/
theorem C10_witness :
    (commandHandler.Handle { events := [] } (Command.activate "X")).events
        = [] ++ [Event.activated ""] ∧
    (∃ l, (commandHandler.Handle { events := [] } (Command.activate "X")).Load ""
        = Except.ok l) ∧
    (commandHandler.Handle { events := [] } (Command.activate "X")).Load "X"
        = Except.error OrderError.orderNotFound :=
  C10_empty_id_append { events := [] } "X" (by decide) rfl

/- Invariant for the round-trip property: along any run of successful
   operations from a seeded fresh aggregate, the identifier stays at the
   seed, every uncommitted event is owned by the seed, and replaying the
   uncommitted buffer reproduces the in-memory status. -/

def RunInv (seed : String) (o : Order) : Prop :=
  o.ID = seed ∧ (∀ e ∈ o.uncommitted, e.ID = seed) ∧
    (loadFromHistory o.uncommitted).Status = o.Status

theorem RunInv_apply_true (seed : String) (o : Order) (e : Event)
    (hInv : RunInv seed o) (he : e.ID = seed) : RunInv seed (apply o e true) := by
  obtain ⟨hID, hall, hstat⟩ := hInv
  refine ⟨by rw [apply_ID, he], ?_, ?_⟩
  · rw [apply_true_uncommitted]
    intro x hx
    rcases List.mem_append.mp hx with hx | hx
    · exact hall x hx
    · rw [List.mem_singleton.mp hx]
      exact he
  · rw [apply_true_uncommitted, loadFromHistory_concat, apply_Status, apply_Status]

theorem step_facts (seed : String) (o o2 : Order) (op : Op)
    (hInv : RunInv seed o) (h : runOp o op = (o2, none)) :
    RunInv seed o2 ∧ (o.uncommitted ≠ [] → o2.uncommitted ≠ []) ∧
      (o.Status = StatusPlaced → o2.uncommitted ≠ []) := by
  cases op with
  | place lines =>
      by_cases h1 : o.ID = ""
      · simp [runOp, Order.Place, h1] at h
      · by_cases h2 : lines.length = 0
        · simp [runOp, Order.Place, h1, h2] at h
        · simp only [runOp, Order.Place, if_neg h1, if_neg h2] at h
          injection h with h3 h4
          subst h3
          refine ⟨RunInv_apply_true seed o (Event.placed o.ID) hInv hInv.1, ?_, ?_⟩
          · intro _
            rw [apply_true_uncommitted]
            simp
          · intro _
            rw [apply_true_uncommitted]
            simp
  | activate =>
      simp only [runOp] at h
      injection h with h3 h4
      subst h3
      by_cases hs : o.Status = StatusPlaced
      · have hact : o.Activate = apply o (Event.activated o.ID) true := by
          simp only [Order.Activate, if_pos hs]
        rw [hact]
        refine ⟨RunInv_apply_true seed o (Event.activated o.ID) hInv hInv.1, ?_, ?_⟩
        · intro _
          rw [apply_true_uncommitted]
          simp
        · intro _
          rw [apply_true_uncommitted]
          simp
      · have hact : o.Activate = o := by
          simp only [Order.Activate, if_neg hs]
        rw [hact]
        exact ⟨hInv, fun hh => hh, fun hh => absurd hh hs⟩

theorem runOps_facts (seed : String) (ops : List Op) (o0 o : Order)
    (hInv : RunInv seed o0) (h : runOps o0 ops = some o) :
    RunInv seed o ∧ (o0.uncommitted ≠ [] → o.uncommitted ≠ []) := by
  induction ops generalizing o0 with
  | nil =>
      simp [runOps] at h
      subst h
      exact ⟨hInv, fun hh => hh⟩
  | cons op rest ih =>
      rcases hr : runOp o0 op with ⟨o1, err⟩
      cases err with
      | none =>
          have h1 : runOps o1 rest = some o := by simpa [runOps, hr] using h
          have hs := step_facts seed o0 o1 op hInv hr
          have hrec := ih o1 hs.1 h1
          exact ⟨hrec.1, fun hh => hrec.2 (hs.2.1 hh)⟩
      | some e =>
          simp [runOps, hr] at h

/-- C6 counterexample: the empty sequence of valid operations on a fresh
aggregate seeded with identifier X (the way the command handler constructs a
fresh aggregate) refutes the claim as stated: Save is a no-op since nothing is
uncommitted, and loading X back from the empty store yields the zero aggregate
whose identifier is empty, not X. -/
theorem C6_counterexample :
    runOps (freshOrder "X") [] = some (freshOrder "X") ∧
    ¬ ((defaultRepository.Load (defaultRepository.Save { events := [] } (freshOrder "X"))
          (freshOrder "X").ID).ID = (freshOrder "X").ID) := by
  decide

/-- C6 amended: for every non-empty sequence of operations that all succeed,
performed on a fresh aggregate seeded with an identifier, saving the resulting
aggregate through the repository into an empty store and loading it back by
its identifier yields an aggregate with the same identifier and the same
status as the in-memory aggregate before the save. -/
theorem C6_amended (seed : String) (ops : List Op) (o : Order)
    (hne : ops ≠ []) (h : runOps (freshOrder seed) ops = some o) :
    (defaultRepository.Load (defaultRepository.Save { events := [] } o) o.ID).ID = o.ID ∧
    (defaultRepository.Load (defaultRepository.Save { events := [] } o) o.ID).Status
      = o.Status := by
  have hInv0 : RunInv seed (freshOrder seed) := by
    refine ⟨rfl, ?_, rfl⟩
    intro e he
    exact absurd he (List.not_mem_nil e)
  cases ops with
  | nil => exact absurd rfl hne
  | cons op rest =>
      rcases hr : runOp (freshOrder seed) op with ⟨o1, err⟩
      cases err with
      | some e => simp [runOps, hr] at h
      | none =>
          have h1 : runOps o1 rest = some o := by simpa [runOps, hr] using h
          have hstep := step_facts seed (freshOrder seed) o1 op hInv0 hr
          have hfacts := runOps_facts seed rest o1 o hstep.1 h1
          have hu : o.uncommitted ≠ [] := hfacts.2 (hstep.2.2 rfl)
          obtain ⟨hID, hall, hstat⟩ := hfacts.1
          have hsave : defaultRepository.Save { events := [] } o
              = { events := o.uncommitted } := by
            simp [defaultRepository.Save, eventStore.Save, List.length_pos.mpr hu]
          have hfilter : o.uncommitted.filter (fun e => e.ID == o.ID) = o.uncommitted := by
            rw [List.filter_eq_self]
            intro e he
            exact beq_iff_eq.mpr ((hall e he).trans hID.symm)
          have hlen : ¬ (o.uncommitted.length = 0) :=
            fun hc => hu (List.length_eq_zero.mp hc)
          have hload : defaultRepository.Load { events := o.uncommitted } o.ID
              = loadFromHistory o.uncommitted := by
            simp only [defaultRepository.Load, eventStore.Load, hfilter]
            rw [if_neg hlen]
          rw [hsave, hload]
          constructor
          · rw [loadFromHistory_ID o.uncommitted o.ID hu
              (fun e he => (hall e he).trans hID.symm)]
          · exact hstat

/-- C6 witness: the amended theorem for the single successful operation of
placing one line on a fresh aggregate seeded with A. -/
theorem C6_witness :
    (defaultRepository.Load
        (defaultRepository.Save { events := [] }
          { ID := "A", Status := StatusPlaced, uncommitted := [Event.placed "A"] })
        (Order.ID { ID := "A", Status := StatusPlaced, uncommitted := [Event.placed "A"] })).ID
      = Order.ID { ID := "A", Status := StatusPlaced, uncommitted := [Event.placed "A"] } ∧
    (defaultRepository.Load
        (defaultRepository.Save { events := [] }
          { ID := "A", Status := StatusPlaced, uncommitted := [Event.placed "A"] })
        (Order.ID { ID := "A", Status := StatusPlaced, uncommitted := [Event.placed "A"] })).Status
      = Order.Status { ID := "A", Status := StatusPlaced, uncommitted := [Event.placed "A"] } :=
  C6_amended "A" [Op.place [Line.mk]]
    { ID := "A", Status := StatusPlaced, uncommitted := [Event.placed "A"] }
    (by decide) (by decide)
